import Mathlib

/-!
Verification of the content-addressed de-duplication cache of
`apod_desktop.py` (COMP 593 final project).

The development shallowly embeds the parts of the script that the
specification's claims are about:

* the Fingerprint Engine: `sha256(image_msg).hexdigest()` (line 49), embedded
  as an executable FIPS 180-4 SHA-256 over byte lists;
* the Metadata Store: the sqlite table `images` and the functions
  `create_image_db`, `add_image_to_db`, `image_already_in_db`
  (lines 205-285), embedded as operations on a list of rows;
* the filesystem and `save_image_file` (lines 190-203), embedded as an
  association list from paths to byte lists, with a `writeOk` parameter
  modelling whether `open(path, 'wb')` succeeds;
* the Cache Coordinator: the store-if-absent logic of `main`
  (lines 49-59), embedded as `put_if_absent`;
* the Path Deriver: `get_image_path` (lines 108-124), which applies the
  regex `.*/(.*)` to the URL and joins the captured group with the
  directory via `os.path.join`.
-/

deriving instance DecidableEq for Except

namespace ApodDesktop

/-! ## Fingerprint Engine: SHA-256 (`hashlib.sha256(...).hexdigest()`) -/

/-- A byte sequence: each entry is intended to lie in `[0, 256)`. -/
abbrev Bytes := List Nat

/-- Reduction to a 32-bit word, the `% 2^32` wrap of SHA-256 word arithmetic. -/
def w32 (x : Nat) : Nat := x % 4294967296

/-- Right rotation of a 32-bit word by `n` bits. -/
def rotr (n x : Nat) : Nat :=
  let y := w32 x
  w32 ((y >>> n) ||| (y <<< (32 - n)))

/-- Logical right shift of a 32-bit word by `n` bits. -/
def shr (n x : Nat) : Nat := (w32 x) >>> n

/-- Bitwise complement of a 32-bit word. -/
def bnot32 (x : Nat) : Nat := 4294967295 - w32 x

/-- The SHA-256 choice function Ch(x, y, z). -/
def schC (x y z : Nat) : Nat := w32 ((x &&& y) ^^^ (bnot32 x &&& z))

/-- The SHA-256 majority function Maj(x, y, z). -/
def sMaj (x y z : Nat) : Nat := w32 ((x &&& y) ^^^ (x &&& z) ^^^ (y &&& z))

/-- The SHA-256 big sigma-0 function. -/
def bsig0 (x : Nat) : Nat := w32 (rotr 2 x ^^^ rotr 13 x ^^^ rotr 22 x)

/-- The SHA-256 big sigma-1 function. -/
def bsig1 (x : Nat) : Nat := w32 (rotr 6 x ^^^ rotr 11 x ^^^ rotr 25 x)

/-- The SHA-256 small sigma-0 function. -/
def ssig0 (x : Nat) : Nat := w32 (rotr 7 x ^^^ rotr 18 x ^^^ shr 3 x)

/-- The SHA-256 small sigma-1 function. -/
def ssig1 (x : Nat) : Nat := w32 (rotr 17 x ^^^ rotr 19 x ^^^ shr 10 x)

/-- The 64 SHA-256 round constants. -/
def sha256K : List Nat :=
  [1116352408, 1899447441, 3049323471, 3921009573, 961987163, 1508970993,
   2453635748, 2870763221, 3624381080, 310598401, 607225278, 1426881987,
   1925078388, 2162078206, 2614888103, 3248222580, 3835390401, 4022224774,
   264347078, 604807628, 770255983, 1249150122, 1555081692, 1996064986,
   2554220882, 2821834349, 2952996808, 3210313671, 3336571891, 3584528711,
   113926993, 338241895, 666307205, 773529912, 1294757372, 1396182291,
   1695183700, 1986661051, 2177026350, 2456956037, 2730485921, 2820302411,
   3259730800, 3345764771, 3516065817, 3600352804, 4094571909, 275423344,
   430227734, 506948616, 659060556, 883997877, 958139571, 1322822218,
   1537002063, 1747873779, 1955562222, 2024104815, 2227730452, 2361852424,
   2428436474, 2756734187, 3204031479, 3329325298]

/-- The SHA-256 working state: eight 32-bit words. -/
structure Hash8 where
  a : Nat
  b : Nat
  c : Nat
  d : Nat
  e : Nat
  f : Nat
  g : Nat
  h : Nat
deriving DecidableEq

/-- The SHA-256 initial hash value. -/
def sha256H0 : Hash8 :=
  ⟨1779033703, 3144134277, 1013904242, 2773480762,
   1359893119, 2600822924, 528734635, 1541459225⟩

/-- SHA-256 message padding: append `0x80`, zeros to 56 mod 64, and the
64-bit big-endian bit length. -/
def padBytes (msg : Bytes) : Bytes :=
  let L := msg.length
  let k := (120 - (L + 1) % 64) % 64
  let lenBytes := (List.range 8).map (fun i => ((L * 8) >>> (8 * (7 - i))) % 256)
  msg ++ 128 :: List.replicate k 0 ++ lenBytes

/-- Splits a byte list into 64-byte blocks; `fuel` bounds the recursion depth
(any fuel at least the list length is enough, since each step removes 64 bytes). -/
def toBlocksFuel : Nat → Bytes → List Bytes
  | 0, _ => []
  | _, [] => []
  | fuel + 1, x :: l => ((x :: l).take 64) :: toBlocksFuel fuel ((x :: l).drop 64)

/-- Splits a byte list into 64-byte blocks. -/
def toBlocks (l : Bytes) : List Bytes := toBlocksFuel l.length l

/-- The `i`-th 32-bit big-endian word of a 64-byte block. -/
def msgWord (block : Bytes) (i : Nat) : Nat :=
  w32 (block.getD (4 * i) 0 * 16777216 + block.getD (4 * i + 1) 0 * 65536 +
       block.getD (4 * i + 2) 0 * 256 + block.getD (4 * i + 3) 0)

/-- One extension step of the SHA-256 message schedule. -/
def scheduleStep (ws : List Nat) : List Nat :=
  ws ++ [w32 (ssig1 (ws.getD (ws.length - 2) 0) + ws.getD (ws.length - 7) 0 +
              ssig0 (ws.getD (ws.length - 15) 0) + ws.getD (ws.length - 16) 0)]

/-- The 64-entry SHA-256 message schedule of a block. -/
def schedule (block : Bytes) : List Nat :=
  Nat.iterate scheduleStep 48 ((List.range 16).map (msgWord block))

/-- One SHA-256 compression round with round constant `k` and schedule word `w`. -/
def sha256Round (k w : Nat) (s : Hash8) : Hash8 :=
  let t1 := w32 (s.h + bsig1 s.e + schC s.e s.f s.g + k + w)
  let t2 := w32 (bsig0 s.a + sMaj s.a s.b s.c)
  ⟨w32 (t1 + t2), s.a, s.b, s.c, w32 (s.d + t1), s.e, s.f, s.g⟩

/-- SHA-256 compression of one 64-byte block into the running hash. -/
def compressBlock (H : Hash8) (block : Bytes) : Hash8 :=
  let s := (sha256K.zip (schedule block)).foldl (fun s kw => sha256Round kw.1 kw.2 s) H
  ⟨w32 (H.a + s.a), w32 (H.b + s.b), w32 (H.c + s.c), w32 (H.d + s.d),
   w32 (H.e + s.e), w32 (H.f + s.f), w32 (H.g + s.g), w32 (H.h + s.h)⟩

/-- The SHA-256 digest of a byte sequence, as eight 32-bit words. -/
def sha256Words (msg : Bytes) : Hash8 :=
  (toBlocks (padBytes msg)).foldl compressBlock sha256H0

/-- The sixteen lowercase hexadecimal digit characters. -/
def lowercaseHexChars : List Char :=
  "0123456789abcdef".toList

/-- The lowercase hexadecimal digit for a nibble. -/
def hexDigitChar (n : Nat) : Char := lowercaseHexChars.getD n '0'

/-- The eight-character lowercase hexadecimal rendering of a 32-bit word. -/
def wordToHex (w : Nat) : List Char :=
  (List.range 8).map (fun i => hexDigitChar (w / 16 ^ (7 - i) % 16))

/-- The fingerprint of the source, line 49:
`image_sha256 = sha256(image_msg).hexdigest()` — the SHA-256 digest rendered
as a 64-character lowercase hexadecimal string. -/
def sha256Hex (msg : Bytes) : String :=
  let H := sha256Words msg
  String.mk (wordToHex H.a ++ wordToHex H.b ++ wordToHex H.c ++ wordToHex H.d ++
             wordToHex H.e ++ wordToHex H.f ++ wordToHex H.g ++ wordToHex H.h)

/-! ## Metadata Store: the sqlite table `images` -/

/-- One row of the `images` table created by `create_image_db` (lines 216-222):
`id integer PRIMARY KEY, image_path text, image_size text, hash text,
downloaded_at datetime`.  `id` is a sqlite rowid alias, auto-assigned as
one more than the largest existing id on insert. -/
structure AssetRecord where
  id : Nat
  image_path : String
  image_size : Nat
  hash : String
  downloaded_at : Nat
deriving DecidableEq

/-- The database file state: `none` while the `images` table does not exist,
`some rows` once it does.  `create_image_db` (lines 205-228) runs
`CREATE TABLE IF NOT EXISTS images (...)`: it creates an empty table when
absent and leaves an existing table untouched. -/
def create_image_db : Option (List AssetRecord) → Option (List AssetRecord)
  | none => some []
  | some rows => some rows

/-- The rowid sqlite assigns to the next inserted row: one more than the
largest id in the table. -/
def nextId (db : List AssetRecord) : Nat :=
  db.foldr (fun r m => max r.id m) 0 + 1

/-- Embeds `add_image_to_db` (lines 230-257): `INSERT INTO images (image_path,
image_size, hash, downloaded_at) VALUES (?, ?, ?, ?)` with the values
`(image_path, image_size, image_sha256, datetime.now())`; the timestamp is
passed in as `now`. -/
def add_image_to_db (db : List AssetRecord) (image_path : String) (image_size : Nat)
    (image_sha256 : String) (now : Nat) : List AssetRecord :=
  db ++ [⟨nextId db, image_path, image_size, image_sha256, now⟩]

/-- Embeds `image_already_in_db` (lines 259-285): `SELECT id FROM images WHERE
hash = ?`, returning `False` when no row matches and `True` otherwise. -/
def image_already_in_db (db : List AssetRecord) (image_sha256 : String) : Bool :=
  db.any (fun r => decide (r.hash = image_sha256))

/-- The number of rows of the table whose `hash` column equals
`image_sha256` (observation used to state uniqueness claims). -/
def countHash (db : List AssetRecord) (image_sha256 : String) : Nat :=
  (db.filter (fun r => decide (r.hash = image_sha256))).length

/-! ## Filesystem and `save_image_file` -/

/-- The filesystem, as an association list from paths to file contents. -/
abbrev FileSystem := List (String × Bytes)

/-- Writing a file: `open(path, 'wb')` truncates an existing file or creates
a new one, then `write` stores the bytes. -/
def fsWrite : FileSystem → String → Bytes → FileSystem
  | [], p, b => [(p, b)]
  | e :: rest, p, b => if e.1 = p then (p, b) :: rest else e :: fsWrite rest p b

/-- Reading a file's contents back, `none` when no file exists at the path. -/
def fsRead (fs : FileSystem) (p : String) : Option Bytes :=
  (fs.find? (fun e => decide (e.1 = p))).map (fun e => e.2)

/-- Embeds `save_image_file` (lines 190-203): writes `image_msg` to `image_path`.
`writeOk` models whether `open(image_path, 'wb')` succeeds; when it fails the
function raises (returns `none`) and the filesystem is unchanged. -/
def save_image_file (writeOk : String → Bool) (fs : FileSystem) (image_msg : Bytes)
    (image_path : String) : Option FileSystem :=
  if writeOk image_path then some (fsWrite fs image_path image_msg) else none

/-! ## Cache Coordinator: the store-if-absent logic of `main` (lines 49-59) -/

/-- The cache state: the `images` table rows and the filesystem. -/
structure CacheState where
  db : List AssetRecord
  fs : FileSystem
deriving DecidableEq

/-- The outcome of one store-if-absent attempt.  `Stored` and
`AlreadyPresent` are the two terminating paths of lines 57-59;
`WriteFailed` is the exception path when `save_image_file` cannot open the
target (the write failure of the spec). -/
inductive CacheOutcome where
  | Stored (path fingerprint : String) (size : Nat)
  | AlreadyPresent (fingerprint : String)
  | WriteFailed
deriving DecidableEq

/-- The Cache Coordinator, embedding `main` lines 49-59:
`image_sha256 = sha256(image_msg).hexdigest()`;
`image_size = len(image_msg)`;
`if not image_already_in_db(db_path, image_sha256):`
`    save_image_file(image_msg, image_path)`
`    add_image_to_db(db_path, image_path, image_size, image_sha256)`.
When the hash is already present nothing is touched; otherwise the bytes are
written first and the row inserted only if the write succeeded. -/
def put_if_absent (writeOk : String → Bool) (s : CacheState) (image_msg : Bytes)
    (image_path : String) (now : Nat) : CacheOutcome × CacheState :=
  let image_sha256 := sha256Hex image_msg
  let image_size := image_msg.length
  if image_already_in_db s.db image_sha256 then
    (CacheOutcome.AlreadyPresent image_sha256, s)
  else
    match save_image_file writeOk s.fs image_msg image_path with
    | none => (CacheOutcome.WriteFailed, s)
    | some fs2 =>
        (CacheOutcome.Stored image_path image_sha256 image_size,
         ⟨add_image_to_db s.db image_path image_size image_sha256 now, fs2⟩)

/-! ## Path Deriver: `get_image_path` (lines 108-124) -/

/-- The error kind the spec assigns to a failed path derivation (in the
source, `url_search.group(1)` raising `AttributeError` when the regex does
not match). -/
inductive PathError where
  | MalformedIdentifier
deriving DecidableEq

/-- The text captured by `(.*)` in `re.search(r".*/(.*)", url)` when the
regex matches: since the leading `.*` is greedy, the group is everything
after the final `/`.  (URLs are single-line, so `.` behaves as
any-character here.) -/
def trailingSegment (s : String) : String :=
  String.mk ((s.toList.reverse.takeWhile (fun c => c != '/')).reverse)

/-- Embeds `re.search(r".*/(.*)", url)` followed by `.group(1)`: matches exactly
when the string contains a `/`, and captures everything after the final one. -/
def reSearchGroup1 (image_url : String) : Option String :=
  if image_url.toList.contains '/' then some (trailingSegment image_url) else none

/-- Embeds `os.path.join(dir, name)` (POSIX semantics, as the spec's examples use):
an absolute `name` replaces `dir`; otherwise the parts are joined, adding a
separator unless `dir` is empty or already ends in one. -/
def os_path_join (dir name : String) : String :=
  if name.toList.take 1 = ['/'] then name
  else if dir = "" then dir ++ name
  else if dir.toList.getLast? = some '/' then dir ++ name
  else dir ++ "/" ++ name

/-- Embeds `get_image_path` (lines 108-124): extracts the image name from the URL
with `re.search(r".*/(.*)", image_url).group(1)` and joins it with the
directory.  When the regex does not match, `group(1)` raises — the
`MalformedIdentifier` failure. -/
def get_image_path (image_url dir_path : String) : Except PathError String :=
  match reSearchGroup1 image_url with
  | none => Except.error PathError.MalformedIdentifier
  | some image_name => Except.ok (os_path_join dir_path image_name)

/-- The claim's side condition on identifiers, written from the spec's
words: the identifier contains at least one `/` followed by a non-empty
trailing segment. -/
def hasNonemptyTrailingSegment (s : String) : Bool :=
  s.toList.contains '/' && (trailingSegment s != "")

/-! ## Helper lemmas -/

/-- Unfolding of the coordinator on a cache miss with a successful write. -/
lemma put_if_absent_absent_ok (writeOk : String → Bool) (s : CacheState)
    (b : Bytes) (p : String) (t : Nat)
    (habs : image_already_in_db s.db (sha256Hex b) = false) (hw : writeOk p = true) :
    put_if_absent writeOk s b p t =
      (CacheOutcome.Stored p (sha256Hex b) b.length,
       ⟨add_image_to_db s.db p b.length (sha256Hex b) t, fsWrite s.fs p b⟩) := by
  simp [put_if_absent, save_image_file, habs, hw]

/-- Unfolding of the coordinator on a cache hit. -/
lemma put_if_absent_present_eq (writeOk : String → Bool) (s : CacheState)
    (b : Bytes) (p : String) (t : Nat)
    (hpres : image_already_in_db s.db (sha256Hex b) = true) :
    put_if_absent writeOk s b p t =
      (CacheOutcome.AlreadyPresent (sha256Hex b), s) := by
  simp [put_if_absent, hpres]

/-- Unfolding of the coordinator on a cache miss with a failing write. -/
lemma put_if_absent_write_failed_eq (writeOk : String → Bool) (s : CacheState)
    (b : Bytes) (p : String) (t : Nat)
    (habs : image_already_in_db s.db (sha256Hex b) = false) (hw : writeOk p = false) :
    put_if_absent writeOk s b p t = (CacheOutcome.WriteFailed, s) := by
  simp [put_if_absent, save_image_file, habs, hw]

/-- After inserting a row with a given hash, the lookup finds it. -/
lemma image_already_in_db_add (db : List AssetRecord) (p : String) (sz : Nat)
    (f : String) (t : Nat) :
    image_already_in_db (add_image_to_db db p sz f t) f = true := by
  simp [image_already_in_db, add_image_to_db]

/-- A negative lookup means no row carries the hash. -/
lemma countHash_eq_zero (db : List AssetRecord) (f : String)
    (h : image_already_in_db db f = false) : countHash db f = 0 := by
  rw [image_already_in_db, List.any_eq_false] at h
  simp only [countHash, List.length_eq_zero, List.filter_eq_nil_iff]
  exact h

/-- The hash count is additive over table concatenation. -/
lemma countHash_append (l1 l2 : List AssetRecord) (f : String) :
    countHash (l1 ++ l2) f = countHash l1 f + countHash l2 f := by
  simp [countHash, List.filter_append]

/-- Reading back a freshly written file returns the written bytes. -/
lemma fsRead_fsWrite (fs : FileSystem) (p : String) (b : Bytes) :
    fsRead (fsWrite fs p b) p = some b := by
  induction fs with
  | nil => simp [fsWrite, fsRead, List.find?]
  | cons e rest ih =>
    by_cases h : e.1 = p
    · simp [fsWrite, h, fsRead, List.find?]
    · simp only [fsWrite, if_neg h]
      simp only [fsRead, List.find?_cons, decide_eq_true_iff]
      simp only [fsRead] at ih
      simp [h, ih]

/-- The base value is a lower bound of the running-maximum fold. -/
lemma le_foldr_max (db : List AssetRecord) (x : Nat) :
    x ≤ db.foldr (fun r m => max r.id m) x := by
  induction db with
  | nil => exact Nat.le_refl x
  | cons r rest ih => exact Nat.le_trans ih (Nat.le_max_right _ _)

/-- The auto-assigned id of a second insert exceeds that of the first. -/
lemma nextId_append_gt (db : List AssetRecord) (r : AssetRecord) :
    r.id < nextId (db ++ [r]) := by
  simp only [nextId, List.foldr_append, List.foldr_cons, List.foldr_nil, Nat.max_zero]
  have := le_foldr_max db r.id
  omega

/-- Every nibble renders to a lowercase hexadecimal character. -/
lemma hexDigitChar_mem (n : Nat) : hexDigitChar n ∈ lowercaseHexChars := by
  by_cases h : n < 16
  · interval_cases n <;> decide
  · unfold hexDigitChar
    rw [List.getD_eq_default]
    · decide
    · have h16 : lowercaseHexChars.length = 16 := rfl
      omega

/-- A word renders to eight characters. -/
lemma wordToHex_length (w : Nat) : (wordToHex w).length = 8 := by
  simp [wordToHex]

/-- All characters of a rendered word are lowercase hexadecimal. -/
lemma wordToHex_all_hex (w : Nat) :
    (wordToHex w).all (fun c => decide (c ∈ lowercaseHexChars)) = true := by
  rw [List.all_eq_true]
  intro c hc
  rw [wordToHex, List.mem_map] at hc
  obtain ⟨i, _, rfl⟩ := hc
  rw [decide_eq_true_iff]
  exact hexDigitChar_mem _

/-- The head of a non-empty `dropWhile` result fails the predicate. -/
lemma dropWhile_head_false {α : Type} (q : α → Bool) (l : List α) (hd : α) (tl : List α)
    (h : List.dropWhile q l = hd :: tl) : q hd = false := by
  induction l with
  | nil => simp [List.dropWhile] at h
  | cons a rest ih =>
    rw [List.dropWhile_cons] at h
    by_cases ha : q a = true
    · rw [if_pos ha] at h
      exact ih h
    · rw [if_neg ha] at h
      cases h
      exact Bool.eq_false_iff.mpr ha

/-- Decomposition behind the regex capture: a string containing a slash is a
prefix, then a final slash, then the captured trailing segment, which itself
contains no slash. -/
lemma trailingSegment_decomp (s : String) (h : s.toList.contains '/' = true) :
    ∃ pre : List Char,
      s.toList = pre ++ '/' :: (trailingSegment s).toList ∧
      '/' ∉ (trailingSegment s).toList := by
  have hmem : '/' ∈ s.toList := by
    simpa using h
  set q : Char → Bool := fun c => c != '/' with hq
  have hsplit : (s.toList.reverse.takeWhile q) ++ (s.toList.reverse.dropWhile q)
      = s.toList.reverse := List.takeWhile_append_dropWhile q s.toList.reverse
  have hmemrev : '/' ∈ s.toList.reverse := List.mem_reverse.mpr hmem
  have hne : s.toList.reverse.dropWhile q ≠ [] := by
    intro hnil
    rw [hnil, List.append_nil] at hsplit
    rw [← hsplit] at hmemrev
    have := List.mem_takeWhile_imp hmemrev
    simp [hq] at this
  obtain ⟨hd, tl, htl⟩ := List.exists_cons_of_ne_nil hne
  have hhd : q hd = false := dropWhile_head_false q _ hd tl htl
  have hhd' : hd = '/' := by
    simpa [hq] using hhd
  have hts : (trailingSegment s).toList = (s.toList.reverse.takeWhile q).reverse := rfl
  refine ⟨tl.reverse, ?_, ?_⟩
  · have hrr : s.toList = (s.toList.reverse).reverse := (List.reverse_reverse _).symm
    rw [hts]
    conv_lhs => rw [hrr, ← hsplit, htl, hhd']
    simp
  · rw [hts]
    intro hc
    rw [List.mem_reverse] at hc
    have := List.mem_takeWhile_imp hc
    simp [hq] at this

/-! ## Claims -/

/-- Claim C1: for every byte sequence `b` and candidate paths `p1, p2`,
calling `put_if_absent(b, p1)` on a store not containing `fingerprint(b)`
(with `p1` writable) and then `put_if_absent(b, p2)` yields `Stored` then
`AlreadyPresent`; exactly one file is written (the first call performs the
single write, the second call leaves the whole state unchanged), and exactly
one `AssetRecord` with that fingerprint is left in the Metadata Store. -/
theorem put_if_absent_twice_dedups (db : List AssetRecord) (fs : FileSystem)
    (writeOk : String → Bool) (b : Bytes) (p1 p2 : String) (t1 t2 : Nat)
    (habs : image_already_in_db db (sha256Hex b) = false) (hw : writeOk p1 = true) :
    (put_if_absent writeOk ⟨db, fs⟩ b p1 t1).1
        = CacheOutcome.Stored p1 (sha256Hex b) b.length ∧
    (put_if_absent writeOk ((put_if_absent writeOk ⟨db, fs⟩ b p1 t1).2) b p2 t2).1
        = CacheOutcome.AlreadyPresent (sha256Hex b) ∧
    (put_if_absent writeOk ((put_if_absent writeOk ⟨db, fs⟩ b p1 t1).2) b p2 t2).2
        = (put_if_absent writeOk ⟨db, fs⟩ b p1 t1).2 ∧
    (put_if_absent writeOk ⟨db, fs⟩ b p1 t1).2.fs = fsWrite fs p1 b ∧
    countHash (put_if_absent writeOk ((put_if_absent writeOk ⟨db, fs⟩ b p1 t1).2) b p2 t2).2.db
        (sha256Hex b) = 1 := by
  have h1 := put_if_absent_absent_ok writeOk ⟨db, fs⟩ b p1 t1 habs hw
  have hpres1 : image_already_in_db (put_if_absent writeOk ⟨db, fs⟩ b p1 t1).2.db
      (sha256Hex b) = true := by
    rw [h1]
    exact image_already_in_db_add db p1 b.length (sha256Hex b) t1
  have h2 := put_if_absent_present_eq writeOk (put_if_absent writeOk ⟨db, fs⟩ b p1 t1).2
    b p2 t2 hpres1
  refine ⟨by rw [h1], by rw [h2], by rw [h2], by rw [h1], ?_⟩
  rw [h2]
  show countHash (put_if_absent writeOk ⟨db, fs⟩ b p1 t1).2.db (sha256Hex b) = 1
  rw [h1]
  show countHash (add_image_to_db db p1 b.length (sha256Hex b) t1) (sha256Hex b) = 1
  rw [add_image_to_db, countHash_append, countHash_eq_zero db _ habs]
  simp [countHash]

/-- Witness for C1 at empty bytes on the empty store. -/
theorem put_if_absent_twice_dedups_witness :
    (put_if_absent (fun _ => true) ⟨[], []⟩ [] "a" 1).1
        = CacheOutcome.Stored "a" (sha256Hex []) 0 ∧
    (put_if_absent (fun _ => true)
        ((put_if_absent (fun _ => true) ⟨[], []⟩ [] "a" 1).2) [] "b" 2).1
        = CacheOutcome.AlreadyPresent (sha256Hex []) :=
  ⟨(put_if_absent_twice_dedups [] [] (fun _ => true) [] "a" "b" 1 2 rfl rfl).1,
   (put_if_absent_twice_dedups [] [] (fun _ => true) [] "a" "b" 1 2 rfl rfl).2.1⟩

/-- Claim C2: if the Metadata Store already contains `fingerprint(b)`, the
call returns `AlreadyPresent` and the entire state — store and filesystem —
is unchanged. -/
theorem put_if_absent_present_noop (writeOk : String → Bool) (db : List AssetRecord)
    (fs : FileSystem) (b : Bytes) (p : String) (t : Nat)
    (hpres : image_already_in_db db (sha256Hex b) = true) :
    put_if_absent writeOk ⟨db, fs⟩ b p t
      = (CacheOutcome.AlreadyPresent (sha256Hex b), ⟨db, fs⟩) :=
  put_if_absent_present_eq writeOk ⟨db, fs⟩ b p t hpres

/-- Witness for C2: a store holding the fingerprint of the empty byte
sequence is untouched by a second put of those bytes. -/
theorem put_if_absent_present_noop_witness :
    put_if_absent (fun _ => true) ⟨[⟨1, "q", 0, sha256Hex [], 0⟩], []⟩ [] "p" 7
      = (CacheOutcome.AlreadyPresent (sha256Hex []),
         ⟨[⟨1, "q", 0, sha256Hex [], 0⟩], []⟩) :=
  put_if_absent_present_noop (fun _ => true) [⟨1, "q", 0, sha256Hex [], 0⟩] [] [] "p" 7
    (by simp [image_already_in_db])

/-- Claim C3: if the filesystem write fails during `put_if_absent(b, p)`
(cache miss, unwritable path), the call yields `WriteFailed`, no metadata
record is inserted, and `contains(fingerprint(b))` still returns false
afterwards — the state is unchanged on error. -/
theorem put_if_absent_write_failure_frame (writeOk : String → Bool)
    (db : List AssetRecord) (fs : FileSystem) (b : Bytes) (p : String) (t : Nat)
    (habs : image_already_in_db db (sha256Hex b) = false) (hw : writeOk p = false) :
    put_if_absent writeOk ⟨db, fs⟩ b p t = (CacheOutcome.WriteFailed, ⟨db, fs⟩) ∧
    image_already_in_db (put_if_absent writeOk ⟨db, fs⟩ b p t).2.db (sha256Hex b)
      = false := by
  have h := put_if_absent_write_failed_eq writeOk ⟨db, fs⟩ b p t habs hw
  exact ⟨h, by rw [h]; exact habs⟩

/-- Witness for C3 at empty bytes with an unwritable target. -/
theorem put_if_absent_write_failure_frame_witness :
    put_if_absent (fun _ => false) ⟨[], []⟩ [] "p" 3 = (CacheOutcome.WriteFailed, ⟨[], []⟩) ∧
    image_already_in_db (put_if_absent (fun _ => false) ⟨[], []⟩ [] "p" 3).2.db
      (sha256Hex []) = false :=
  put_if_absent_write_failure_frame (fun _ => false) [] [] [] "p" 3 rfl rfl

/-- Claim C4: after `put_if_absent(b, p)` returns a `Stored` outcome,
`contains(fingerprint(b))` returns true and the bytes stored in the file at
`p` equal `b` exactly (write/read round-trip). -/
theorem put_if_absent_stored_roundtrip (writeOk : String → Bool)
    (db : List AssetRecord) (fs : FileSystem) (b : Bytes) (p : String) (t : Nat)
    (pth fpr : String) (sz : Nat)
    (h : (put_if_absent writeOk ⟨db, fs⟩ b p t).1 = CacheOutcome.Stored pth fpr sz) :
    image_already_in_db (put_if_absent writeOk ⟨db, fs⟩ b p t).2.db (sha256Hex b)
      = true ∧
    fsRead (put_if_absent writeOk ⟨db, fs⟩ b p t).2.fs p = some b := by
  cases hpres : image_already_in_db db (sha256Hex b) with
  | true =>
    rw [put_if_absent_present_eq writeOk ⟨db, fs⟩ b p t hpres] at h
    simp at h
  | false =>
    cases hw : writeOk p with
    | false =>
      rw [put_if_absent_write_failed_eq writeOk ⟨db, fs⟩ b p t hpres hw] at h
      simp at h
    | true =>
      have h1 := put_if_absent_absent_ok writeOk ⟨db, fs⟩ b p t hpres hw
      rw [h1]
      exact ⟨image_already_in_db_add db p b.length (sha256Hex b) t,
             fsRead_fsWrite fs p b⟩

/-- Witness for C4 at empty bytes on the empty store. -/
theorem put_if_absent_stored_roundtrip_witness :
    image_already_in_db (put_if_absent (fun _ => true) ⟨[], []⟩ [] "a" 0).2.db
      (sha256Hex []) = true ∧
    fsRead (put_if_absent (fun _ => true) ⟨[], []⟩ [] "a" 0).2.fs "a" = some [] :=
  put_if_absent_stored_roundtrip (fun _ => true) [] [] [] "a" 0 "a" (sha256Hex []) 0 rfl

set_option maxRecDepth 10000 in
/-- Claim C5: the fingerprint is total and deterministic over every byte
sequence (including the empty one), renders as a fixed-length 64-character
string all of whose characters are lowercase hexadecimal digits, and agrees
with the published SHA-256 test vector on the empty input. -/
theorem sha256Hex_total_deterministic_hex64 :
    (∀ b : Bytes, sha256Hex b = sha256Hex b ∧ (sha256Hex b).length = 64 ∧
      (sha256Hex b).toList.all (fun c => decide (c ∈ lowercaseHexChars)) = true) ∧
    sha256Hex []
      = "e3b0c44298fc1c149afbf4c8996fb92427ae41e4649b934ca495991b7852b855" := by
  constructor
  · intro b
    refine ⟨rfl, ?_, ?_⟩
    · simp [sha256Hex, String.length, wordToHex_length]
    · simp only [sha256Hex, String.toList]
      simp [List.all_append, wordToHex_all_hex]
  · decide

/-- Claim C6 counterexample: the identifier `"a/"` has no non-empty trailing
segment, yet `derive_path` does not fail with `MalformedIdentifier` — the
regex matches with an empty capture and the join returns `"/tmp/"`. -/
theorem get_image_path_trailing_slash_counterexample :
    hasNonemptyTrailingSegment "a/" = false ∧
    get_image_path "a/" "/tmp" = Except.ok "/tmp/" := by decide

/-- Claim C6 (amended): `derive_path` fails with `MalformedIdentifier`
exactly for identifiers containing no `/` at all; an identifier ending in
`/` (empty trailing segment) instead succeeds with an empty file name. -/
theorem get_image_path_malformed_no_slash (s dir : String)
    (h : s.toList.contains '/' = false) :
    get_image_path s dir = Except.error PathError.MalformedIdentifier := by
  have hr : reSearchGroup1 s = none := by
    unfold reSearchGroup1
    rw [if_neg]
    simpa using h
  simp [get_image_path, hr]

/-- Witness for the amended C6 at the spec's example `"noslash"`. -/
theorem get_image_path_malformed_no_slash_witness :
    get_image_path "noslash" "/tmp" = Except.error PathError.MalformedIdentifier :=
  get_image_path_malformed_no_slash "noslash" "/tmp" (by decide)

/-- Claim C7: for every identifier containing a `/` followed by a non-empty
trailing segment, `derive_path` returns the base directory joined with the
substring after the final `/` (the identifier decomposes as a prefix, a
final `/`, and that slash-free non-empty segment); in particular the spec's
example URL derives to `"/tmp/image.jpg"`. -/
theorem get_image_path_trailing_segment (s dir : String)
    (h : hasNonemptyTrailingSegment s = true) :
    (∃ pre : List Char,
      s.toList = pre ++ '/' :: (trailingSegment s).toList ∧
      '/' ∉ (trailingSegment s).toList ∧
      trailingSegment s ≠ "") ∧
    get_image_path s dir = Except.ok (os_path_join dir (trailingSegment s)) ∧
    get_image_path "https://host/a/b/image.jpg" "/tmp" = Except.ok "/tmp/image.jpg" := by
  rw [hasNonemptyTrailingSegment, Bool.and_eq_true] at h
  obtain ⟨hc, hne⟩ := h
  obtain ⟨pre, hdecomp, hnos⟩ := trailingSegment_decomp s hc
  refine ⟨⟨pre, hdecomp, hnos, by simpa using hne⟩, ?_, by decide⟩
  have hr : reSearchGroup1 s = some (trailingSegment s) := by
    unfold reSearchGroup1
    rw [if_pos hc]
  simp [get_image_path, hr]

/-- Witness for C7 at the spec's example URL. -/
theorem get_image_path_trailing_segment_witness :
    get_image_path "https://host/a/b/image.jpg" "/tmp" = Except.ok "/tmp/image.jpg" :=
  (get_image_path_trailing_segment "https://host/a/b/image.jpg" "/tmp" (by decide)).2.2

/-- Claim C8: schema creation is idempotent — on an existing table it
succeeds and leaves all records unchanged, and any positive number of
applications equals a single one. -/
theorem create_image_db_idempotent (s : Option (List AssetRecord))
    (rows : List AssetRecord) (n : Nat) :
    create_image_db (some rows) = some rows ∧
    create_image_db (create_image_db s) = create_image_db s ∧
    Nat.iterate create_image_db (n + 1) s = create_image_db s := by
  refine ⟨rfl, ?_, ?_⟩
  · cases s <;> rfl
  · induction n with
    | zero => rfl
    | succ k ih =>
      rw [Function.iterate_succ_apply' create_image_db (k + 1) s, ih]
      cases s <;> rfl

/-- Claim C9: the empty byte sequence is a legal input — on a store not
containing its fingerprint (and a writable path) it yields a `Stored`
outcome of size 0, inserts a record of size 0, and the record is
subsequently found by the lookup. -/
theorem put_if_absent_empty_bytes (writeOk : String → Bool) (db : List AssetRecord)
    (fs : FileSystem) (p : String) (t : Nat)
    (habs : image_already_in_db db (sha256Hex []) = false) (hw : writeOk p = true) :
    (put_if_absent writeOk ⟨db, fs⟩ [] p t).1 = CacheOutcome.Stored p (sha256Hex []) 0 ∧
    (put_if_absent writeOk ⟨db, fs⟩ [] p t).2.db
      = db ++ [⟨nextId db, p, 0, sha256Hex [], t⟩] ∧
    image_already_in_db (put_if_absent writeOk ⟨db, fs⟩ [] p t).2.db (sha256Hex [])
      = true := by
  have h1 := put_if_absent_absent_ok writeOk ⟨db, fs⟩ [] p t habs hw
  refine ⟨by rw [h1]; rfl, by rw [h1]; rfl, ?_⟩
  rw [h1]
  exact image_already_in_db_add db p 0 (sha256Hex []) t

/-- Witness for C9 on the empty store. -/
theorem put_if_absent_empty_bytes_witness :
    (put_if_absent (fun _ => true) ⟨[], []⟩ [] "p" 4).1
      = CacheOutcome.Stored "p" (sha256Hex []) 0 ∧
    (put_if_absent (fun _ => true) ⟨[], []⟩ [] "p" 4).2.db
      = [] ++ [⟨nextId [], "p", 0, sha256Hex [], 4⟩] ∧
    image_already_in_db (put_if_absent (fun _ => true) ⟨[], []⟩ [] "p" 4).2.db
      (sha256Hex []) = true :=
  put_if_absent_empty_bytes (fun _ => true) [] [] "p" 4 rfl rfl

/-- Claim C10: the Metadata Store enforces no uniqueness on the hash column:
inserting twice with the same fingerprint succeeds both times and leaves two
distinct records with that fingerprint, raising the count by two — only the
coordinator's lookup-before-insert prevents this. -/
theorem add_image_to_db_no_uniqueness (db : List AssetRecord) (p1 p2 : String)
    (s1 s2 t1 t2 : Nat) (f : String) :
    ∃ r1 r2 : AssetRecord,
      add_image_to_db (add_image_to_db db p1 s1 f t1) p2 s2 f t2 = db ++ [r1] ++ [r2] ∧
      r1 ≠ r2 ∧ r1.hash = f ∧ r2.hash = f ∧
      countHash (add_image_to_db (add_image_to_db db p1 s1 f t1) p2 s2 f t2) f
        = countHash db f + 2 := by
  refine ⟨⟨nextId db, p1, s1, f, t1⟩,
    ⟨nextId (db ++ [⟨nextId db, p1, s1, f, t1⟩]), p2, s2, f, t2⟩, ?_, ?_, rfl, rfl, ?_⟩
  · simp [add_image_to_db]
  · intro hr
    have hid := congrArg AssetRecord.id hr
    have hgt := nextId_append_gt db ⟨nextId db, p1, s1, f, t1⟩
    simp at hid hgt
    omega
  · rw [add_image_to_db, add_image_to_db, List.append_assoc, countHash_append]
    rw [countHash_append]
    simp [countHash, nextId]

end ApodDesktop
